import Mathlib

/-!
Shallow embedding of the Probe & Load Service of the anti-gravity-devops
repository (Express HTTP service: `/health`, `/ready`, `/load`, `/metrics`,
the metrics-tracking middleware and the rate limiter), together with proofs
of the specified properties.

The embedding translates the request handlers from `src/routes/api.js`
(`router.get('/load')`, `router.get('/health')`, `router.get('/metrics')`,
the `router.use` metrics middleware) and `src/index.js` (the
`express-rate-limit` configuration).  Wall-clock time is modelled by an
explicit trace of `Date.now()` readings; the external collaborators
(`redis.incr`, `register.metrics()`) are modelled by their outcome
(`Except`), exactly as the handlers observe them.
-/

namespace AntiGravity

/-! ## JavaScript `parseInt` on an optional query parameter

`req.query.duration` is either absent (`undefined`, which stringifies to a
non-numeric word) or a string.  `parseInt` skips leading whitespace, reads an
optional sign, then either a `0x`/`0X`-prefixed hexadecimal numeral or a
decimal numeral, ignoring trailing garbage; it yields NaN (here `none`) when
no digit follows. -/

def jsWhitespace (c : Char) : Bool :=
  c = ' ' || c = '\t' || c = '\n' || c = '\r' || c = '\x0b' || c = '\x0c'

def decDigit (c : Char) : Option Nat :=
  if '0' ≤ c ∧ c ≤ '9' then some (c.toNat - 48) else none

def hexDigit (c : Char) : Option Nat :=
  if '0' ≤ c ∧ c ≤ '9' then some (c.toNat - 48)
  else if 'a' ≤ c ∧ c ≤ 'f' then some (c.toNat - 87)
  else if 'A' ≤ c ∧ c ≤ 'F' then some (c.toNat - 55)
  else none

/-- Accumulate the leading digits recognised by `dv` in base `b` onto `acc`,
stopping at the first non-digit (trailing garbage is ignored, as in JS). -/
def parseDigitsAux (dv : Char → Option Nat) (b : Nat) : Nat → List Char → Nat
  | acc, [] => acc
  | acc, c :: cs =>
    match dv c with
    | some d => parseDigitsAux dv b (acc * b + d) cs
    | none => acc

/-- A `parseInt`-style numeral read: `none` when the first character is not a
digit (JS NaN), otherwise the value of the maximal leading digit run. -/
def parseDigits (dv : Char → Option Nat) (b : Nat) : List Char → Option Nat
  | [] => none
  | c :: cs =>
    match dv c with
    | some d => some (parseDigitsAux dv b d cs)
    | none => none

/-- Split an optional leading sign: returns (isNegative, rest). -/
def signSplit : List Char → Bool × List Char
  | [] => (false, [])
  | c :: cs =>
    if c = '-' then (true, cs)
    else if c = '+' then (false, cs)
    else (false, c :: cs)

/-- After the sign: `0x`/`0X` selects hexadecimal, otherwise decimal. -/
def parseRadix : List Char → Option Nat
  | c0 :: c1 :: cs =>
    if c0 = '0' ∧ (c1 = 'x' ∨ c1 = 'X') then parseDigits hexDigit 16 cs
    else parseDigits decDigit 10 (c0 :: c1 :: cs)
  | cs => parseDigits decDigit 10 cs

/-- Runs `parseInt` on the character list of the argument string: skip leading
whitespace, read the sign, then the numeral. -/
def jsParseIntChars (cs : List Char) : Option Int :=
  let ds := cs.dropWhile jsWhitespace
  let p := signSplit ds
  (parseRadix p.2).map (fun m : Nat => if p.1 then -(m : Int) else (m : Int))

/-- Models `parseInt(req.query.duration)`: `none` models NaN (absent parameter or
no leading numeral). -/
def jsParseInt : Option String → Option Int
  | none => none
  | some s => jsParseIntChars s.data

/-! ## Decimal rendering (number-to-string conversion)

Used both to describe query strings `duration=<n>` and to embed the
JS `Math.round(...) + ' MB'` string concatenation of the health report. -/

def digitChar (d : Nat) : Char := Char.ofNat (48 + d)

/-- Decimal digits, most significant first; structural recursion on a fuel
argument so that the kernel can evaluate it.  `fuel > n` is always enough
since `n / 10 < n` for `n ≥ 10`. -/
def natDecCharsAux (fuel : Nat) (n : Nat) : List Char :=
  match fuel with
  | 0 => []
  | fuel + 1 =>
    if n < 10 then [digitChar n]
    else natDecCharsAux fuel (n / 10) ++ [digitChar (n % 10)]

/-- Decimal digits of `n`, most significant first. -/
def natDecChars (n : Nat) : List Char := natDecCharsAux (n + 1) n

def natDecString (n : Nat) : String := ⟨natDecChars n⟩

/-- Decimal string of an integer, `-` prefixed when negative. -/
def intDecString (n : Int) : String :=
  if n < 0 then ⟨'-' :: natDecChars n.natAbs⟩ else ⟨natDecChars n.natAbs⟩

/-! ## `/load`: duration parsing

`const duration = Math.min(parseInt(req.query.duration) || 5, 30);`
NaN and 0 are falsy, so they fall back to 5 before the upper clamp. -/

def loadDuration (q : Option String) : Int :=
  match jsParseInt q with
  | none => 5
  | some n => if n = 0 then 5 else min n 30

/-! ## `/load`: the busy loop and the handler

The handler reads `startTime = Date.now()`, computes
`endTime = startTime + duration * 1000`, and runs
`while (Date.now() < endTime) do batch; iterations++`.  Each evaluation of
the loop condition reads the clock; we model the run by the trace of those
readings plus the final `Date.now()` used for `actualDuration`.  The loop
exits at the first reading `≥ endTime`; if the trace holds no such reading
the run is not finished and the handler yields `none`. -/

structure Clock where
  /-- Reading of `startTime = Date.now()` (milliseconds). -/
  start : Nat
  /-- Successive `Date.now()` readings at the `while` condition. -/
  checks : List Nat
  /-- Reading of `Date.now()` after the loop, used for `actualDuration`. -/
  finalNow : Nat
  deriving DecidableEq

/-- Iterations completed: readings strictly before `endTime` each run one
more million-operation batch; the first reading `≥ endTime` exits. -/
def loadLoop (endTime : Int) : List Nat → Option Nat
  | [] => none
  | t :: ts =>
    if (t : Int) < endTime then (loadLoop endTime ts).map (· + 1)
    else some 0

/-- The JSON body of `res.json({...})` in `router.get('/load')`.
`actualDuration` is `parseFloat(((Date.now() - startTime) / 1000).toFixed(2))`:
elapsed milliseconds rounded half-up to hundredths of a second. -/
structure LoadResult where
  status : String
  hostname : String
  requestedDuration : Int
  actualDuration : ℚ
  iterations : Nat
  message : String
  deriving DecidableEq

/-- Models `toFixed(2)` then `parseFloat`: round elapsed ms to centiseconds
(half away from zero; elapsed is nonnegative) and scale back. -/
def toFixed2 (elapsedMs : Nat) : ℚ := mkRat ((elapsedMs + 5) / 10) 100

def loadMessage : String :=
  "CPU stress test completed. This simulates the \"gravity\" that pulls down your system. The HPA (Anti-Gravity) will scale up pods to resist this load."

/-- Handler `router.get('/load')`: returns HTTP status and body once the busy loop
has terminated within the clock trace. -/
def loadHandler (hostname : String) (q : Option String) (c : Clock) :
    Option (Nat × LoadResult) :=
  let duration := loadDuration q
  let endTime : Int := (c.start : Int) + duration * 1000
  (loadLoop endTime c.checks).map (fun iters =>
    (200,
      { status := "completed"
        hostname := hostname
        requestedDuration := duration
        actualDuration := toFixed2 (c.finalNow - c.start)
        iterations := iters
        message := loadMessage }))

/-! ## `/health`

`router.get('/health')` initialises `survivorCount = 0`, tries
`await redis.incr('survivor_count')` and swallows any error, then answers
HTTP 200 with the health report.  The memory fields are built by
`Math.round(process.memoryUsage().heapUsed / 1024 / 1024) + ' MB'` — string
concatenation, so they are JSON strings.  A small JSON-value type records
which they are. -/

inductive JsonValue where
  | str : String → JsonValue
  | num : Int → JsonValue
  deriving DecidableEq

/-- What the handler observes per request: the outcome of the `redis.incr`
call and the process readings. -/
structure HealthInput where
  redisIncr : Except String Nat
  heapUsedBytes : Nat
  heapTotalBytes : Nat
  uptime : ℚ
  timestamp : String
  hostname : String

/-- The JSON body of `res.status(200).json(healthStatus)`. -/
structure HealthReport where
  status : String
  hostname : String
  timestamp : String
  uptime : ℚ
  survivorCount : Nat
  memoryUsed : JsonValue
  memoryTotal : JsonValue
  checkServer : String
  checkMemory : String

/-- Computes `Math.round(bytes / 1024 / 1024)`: round half toward +∞. -/
def roundMB (bytes : Nat) : Nat := (2 * bytes + 1048576) / 2097152

/-- Handler `router.get('/health')`. -/
def healthHandler (inp : HealthInput) : Nat × HealthReport :=
  let survivorCount :=
    match inp.redisIncr with
    | .ok n => n
    | .error _ => 0
  (200,
    { status := "healthy"
      hostname := inp.hostname
      timestamp := inp.timestamp
      uptime := inp.uptime
      survivorCount := survivorCount
      memoryUsed := .str (natDecString (roundMB inp.heapUsedBytes) ++ " MB")
      memoryTotal := .str (natDecString (roundMB inp.heapTotalBytes) ++ " MB")
      checkServer := "running"
      checkMemory := if inp.heapUsedBytes < 500 * 1024 * 1024 then "ok" else "warning" })

/-! ## Request-tracking middleware

`router.use` increments the `active_connections` gauge when the request
arrives, and registers a `res.on('finish', ...)` listener that — once the
response completes, whether the handler returned normally or threw (the
global error handler then answers 500) — increments `http_requests_total`
at `(method, path, statusCode)`, observes the elapsed seconds in the
`http_request_duration_seconds` histogram at `(method, path)`, and
decrements the gauge. -/

/-- The process-lifetime metrics registry state, as the middleware touches
it: counters and histogram keyed by their label tuples, and the gauge. -/
structure Metrics where
  httpRequestsTotal : String × String × Nat → Nat
  durationObservations : String × String → List ℚ
  activeConnections : Int

/-- How the route handler terminated: a normal response with its status
code, or a thrown error (the global error handler responds 500). -/
inductive HandlerOutcome where
  | normal : Nat → HandlerOutcome
  | thrown : String → HandlerOutcome

/-- The `res.statusCode` value observed by the finish listener. -/
def finishStatus : HandlerOutcome → Nat
  | .normal s => s
  | .thrown _ => 500

/-- One request through the middleware: gauge up at start, then at response
completion the counter bump, the histogram observation and the gauge down. -/
def trackRequest (m : Metrics) (method path : String) (out : HandlerOutcome)
    (elapsedMs : Nat) : Metrics :=
  let afterStart : Metrics := { m with activeConnections := m.activeConnections + 1 }
  let dur : ℚ := mkRat elapsedMs 1000
  { httpRequestsTotal := fun k =>
      if k = (method, path, finishStatus out) then afterStart.httpRequestsTotal k + 1
      else afterStart.httpRequestsTotal k
    durationObservations := fun k =>
      if k = (method, path) then dur :: afterStart.durationObservations k
      else afterStart.durationObservations k
    activeConnections := afterStart.activeConnections - 1 }

/-- A whole trace of completed requests folded through the middleware. -/
def trackAll (m : Metrics) : List (String × String × HandlerOutcome × Nat) → Metrics
  | [] => m
  | (method, path, out, ms) :: rest => trackAll (trackRequest m method path out ms) rest

/-! ## `/metrics`

`router.get('/metrics')` tries `await register.metrics()`: on success it
answers 200 with the serialized registry, on a thrown error it answers 500
with `error.message` as the whole body. -/

/-- Handler `router.get('/metrics')`, given the outcome of `register.metrics()`. -/
def metricsHandler (serialization : Except String String) : Nat × String :=
  match serialization with
  | .ok body => (200, body)
  | .error e => (500, e)

/-! ## Rate limiter (`src/index.js`)

`express-rate-limit` with `windowMs = 15 * 60 * 1000`, `max = 1000`, and
`skip` for `/health`, `/ready`, `/metrics`.  Within one window, every
non-skipped request of a client IP increments that IP's hit counter and is
rejected (HTTP 429) when the counter exceeds `max`; skipped paths are
neither counted nor rejected. -/

def rateLimitWindowMs : Nat := 15 * 60 * 1000

def rateLimitMax : Nat := 1000

/-- Models `skip: (req) => ['/health', '/ready', '/metrics'].includes(req.path)`. -/
def rateLimitSkip (path : String) : Bool :=
  path = "/health" || path = "/ready" || path = "/metrics"

/-- One request against one client IP's hit counter inside a single window:
returns whether it is allowed and the new counter. -/
def limiterStep (path : String) (hits : Nat) : Bool × Nat :=
  if rateLimitSkip path then (true, hits)
  else (decide (hits + 1 ≤ rateLimitMax), hits + 1)

/-- Runs `n` consecutive requests to a fixed path from one IP in one window:
(number allowed, final hit counter). -/
def limiterRun (path : String) : Nat → Nat × Nat
  | 0 => (0, 0)
  | n + 1 =>
    let p := limiterRun path n
    let s := limiterStep path p.2
    (if s.1 then p.1 + 1 else p.1, s.2)

/-! ## Concrete sample inputs (used to exercise the theorems below) -/

/-- A health request whose `redis.incr` succeeded, on a process with 12 MB
of used heap and 32 MB of total heap. -/
def healthInputOk : HealthInput :=
  { redisIncr := .ok 7
    heapUsedBytes := 12582912
    heapTotalBytes := 33554432
    uptime := 42
    timestamp := "2025-01-01T00:00:00.000Z"
    hostname := "pod-1" }

/-- A health request whose `redis.incr` threw. -/
def healthInputErr : HealthInput :=
  { redisIncr := .error "ECONNREFUSED"
    heapUsedBytes := 1048576
    heapTotalBytes := 2097152
    uptime := 1
    timestamp := "2025-01-01T00:00:00.000Z"
    hostname := "pod-1" }

/-- A fresh metrics registry: all counters zero, no observations. -/
def metricsZero : Metrics :=
  { httpRequestsTotal := fun _ => 0
    durationObservations := fun _ => []
    activeConnections := 0 }

/-- A clock trace for a 1-second load test: start at 0, the loop condition
read at 0 ms and 1000 ms, final reading 1000 ms. -/
def clockOneSec : Clock := ⟨0, [0, 1000], 1000⟩

/-- A clock trace for a 30-second load test that exits at the first check. -/
def clockThirtySec : Clock := ⟨0, [30000], 30000⟩

/-- A clock trace for a 5-second (default-duration) load test. -/
def clockFiveSec : Clock := ⟨0, [5000], 5000⟩

/-- The `/load` response for `duration=1` against the one-second clock
trace `clockOneSec`. -/
def loadResultOneSec : LoadResult :=
  { status := "completed"
    hostname := "unknown"
    requestedDuration := 1
    actualDuration := 1
    iterations := 1
    message := loadMessage }

/-- The `/load` response for `duration=100` against `clockThirtySec`. -/
def loadResultThirtySec : LoadResult :=
  { status := "completed"
    hostname := "unknown"
    requestedDuration := 30
    actualDuration := 30
    iterations := 0
    message := loadMessage }

/-! ## Sanity checks of the embedding on concrete inputs -/

example : loadDuration none = 5 := by decide
example : loadDuration (some "5") = 5 := by decide
example : loadDuration (some "0") = 5 := by decide
example : loadDuration (some "abc") = 5 := by decide
example : loadDuration (some "100") = 30 := by decide
example : loadDuration (some "-3") = -3 := by decide
example : loadDuration (some "  12sec") = 12 := by decide
example : loadDuration (some "0x10") = 16 := by decide

example :
    loadHandler "unknown" (some "1") ⟨0, [0, 400, 1000], 1001⟩ =
      some (200,
        { status := "completed", hostname := "unknown", requestedDuration := 1,
          actualDuration := (1 : ℚ), iterations := 2, message := loadMessage }) := by
  decide

example : (limiterStep "/health" 5000).1 = true := by decide
example : (limiterStep "/load" 1000).1 = false := by decide
set_option maxRecDepth 20000 in
example : limiterRun "/load" 1200 = (1000, 1200) := by decide

/-! ## Digit and decimal-rendering lemmas -/

theorem decDigit_digitChar {d : Nat} (h : d < 10) : decDigit (digitChar d) = some d := by
  interval_cases d <;> decide

theorem digitChar_not_special {d : Nat} (h : d < 10) :
    jsWhitespace (digitChar d) = false ∧ digitChar d ≠ '-' ∧ digitChar d ≠ '+' ∧
      digitChar d ≠ 'x' ∧ digitChar d ≠ 'X' := by
  interval_cases d <;> decide

theorem natDecCharsAux_fuel (f1 : Nat) :
    ∀ f2 n, n < f1 → n < f2 → natDecCharsAux f1 n = natDecCharsAux f2 n := by
  induction f1 with
  | zero => omega
  | succ g1 ih =>
    intro f2 n h1 h2
    match f2, h2 with
    | g2 + 1, _ =>
      rw [natDecCharsAux, natDecCharsAux]
      by_cases h10 : n < 10
      · rw [if_pos h10, if_pos h10]
      · rw [if_neg h10, if_neg h10,
          ih g2 (n / 10) (by omega) (by omega)]

/-- The recursive unfolding of `natDecChars`. -/
theorem natDecChars_eq (n : Nat) :
    natDecChars n =
      if n < 10 then [digitChar n] else natDecChars (n / 10) ++ [digitChar (n % 10)] := by
  show natDecCharsAux (n + 1) n = _
  rw [natDecCharsAux]
  by_cases h10 : n < 10
  · rw [if_pos h10, if_pos h10]
  · rw [if_neg h10, if_neg h10,
      natDecCharsAux_fuel n (n / 10 + 1) (n / 10) (by omega) (by omega)]
    rfl

theorem natDecChars_shape (n : Nat) :
    ∃ d cs, natDecChars n = digitChar d :: cs ∧ d < 10 ∧
      ∀ c ∈ cs, ∃ e, e < 10 ∧ c = digitChar e := by
  induction n using Nat.strong_induction_on with
  | _ n ih =>
    rw [natDecChars_eq]
    split
    · next h => exact ⟨n, [], rfl, h, by simp⟩
    · next h =>
      obtain ⟨d, cs, heq, hd, hcs⟩ := ih (n / 10) (Nat.div_lt_self (by omega) (by omega))
      refine ⟨d, cs ++ [digitChar (n % 10)], by rw [heq]; simp, hd, ?_⟩
      intro c hc
      rcases List.mem_append.mp hc with h1 | h1
      · exact hcs c h1
      · simp only [List.mem_singleton] at h1
        exact ⟨n % 10, Nat.mod_lt _ (by omega), h1⟩

theorem parseDigitsAux_cons_digit {dv : Char → Option Nat} {b acc d : Nat} {c : Char}
    {cs : List Char} (h : dv c = some d) :
    parseDigitsAux dv b acc (c :: cs) = parseDigitsAux dv b (acc * b + d) cs := by
  simp [parseDigitsAux, h]

theorem parseDigits_cons_digit {dv : Char → Option Nat} {b d : Nat} {c : Char}
    {cs : List Char} (h : dv c = some d) :
    parseDigits dv b (c :: cs) = some (parseDigitsAux dv b d cs) := by
  simp [parseDigits, h]

theorem parseDigits_natDecChars (n : Nat) (rest : List Char) :
    parseDigits decDigit 10 (natDecChars n ++ rest) =
      some (parseDigitsAux decDigit 10 n rest) := by
  induction n using Nat.strong_induction_on generalizing rest with
  | _ n ih =>
    rw [natDecChars_eq]
    split
    · next h =>
      rw [List.singleton_append, parseDigits_cons_digit (decDigit_digitChar h)]
    · next h =>
      rw [List.append_assoc, ih (n / 10) (Nat.div_lt_self (by omega) (by omega)),
        List.singleton_append,
        parseDigitsAux_cons_digit (decDigit_digitChar (Nat.mod_lt _ (by omega) : n % 10 < 10)),
        show n / 10 * 10 + n % 10 = n from by omega]

theorem parseDigits_natDecChars_nil (n : Nat) :
    parseDigits decDigit 10 (natDecChars n) = some n := by
  have h := parseDigits_natDecChars n []
  rwa [List.append_nil] at h

theorem parseRadix_natDecChars (n : Nat) : parseRadix (natDecChars n) = some n := by
  obtain ⟨d, cs, heq, hd, hcs⟩ := natDecChars_shape n
  match hcase : cs with
  | [] =>
    subst hcase
    rw [heq]
    show parseDigits decDigit 10 [digitChar d] = some n
    rw [← heq, parseDigits_natDecChars_nil]
  | c1 :: cs' =>
    subst hcase
    obtain ⟨e, he, hc1⟩ := hcs c1 (by simp)
    rw [heq]
    show parseRadix (digitChar d :: c1 :: cs') = some n
    rw [parseRadix, if_neg (by
      rintro ⟨-, hx | hx⟩
      · exact (digitChar_not_special he).2.2.2.1 (hc1 ▸ hx)
      · exact (digitChar_not_special he).2.2.2.2 (hc1 ▸ hx))]
    rw [← heq, parseDigits_natDecChars_nil]

theorem jsParseIntChars_neg_natDec (m : Nat) :
    jsParseIntChars ('-' :: natDecChars m) = some (-(m : Int)) := by
  simp only [jsParseIntChars]
  rw [List.dropWhile_cons]
  rw [show jsWhitespace '-' = false from by decide]
  simp only [Bool.false_eq_true, if_false]
  rw [show signSplit ('-' :: natDecChars m) = (true, natDecChars m) from by simp [signSplit]]
  rw [parseRadix_natDecChars]
  simp

theorem jsParseIntChars_natDec (m : Nat) :
    jsParseIntChars (natDecChars m) = some (m : Int) := by
  obtain ⟨d, cs, heq, hd, hcs⟩ := natDecChars_shape m
  have hspec := digitChar_not_special hd
  simp only [jsParseIntChars]
  rw [heq, List.dropWhile_cons, hspec.1]
  simp only [Bool.false_eq_true, if_false]
  rw [show signSplit (digitChar d :: cs) = (false, digitChar d :: cs) from by
    simp [signSplit, hspec.2.1, hspec.2.2.1]]
  rw [show (digitChar d :: cs) = natDecChars m from heq.symm, parseRadix_natDecChars]
  simp

/-- A decimal numeral round-trips through the `parseInt` model: sending
`duration=<n>` for any integer `n` parses back to `n`. -/
theorem jsParseInt_intDecString (n : Int) : jsParseInt (some (intDecString n)) = some n := by
  by_cases hn : n < 0
  · rw [intDecString, if_pos hn]
    show jsParseIntChars ('-' :: natDecChars n.natAbs) = some n
    rw [jsParseIntChars_neg_natDec]
    congr 1
    omega
  · rw [intDecString, if_neg hn]
    show jsParseIntChars (natDecChars n.natAbs) = some n
    rw [jsParseIntChars_natDec]
    congr 1
    omega

/-! ## `/load` lemmas -/

theorem loadDuration_intDecString {n : Int} (h0 : n ≠ 0) :
    loadDuration (some (intDecString n)) = min n 30 := by
  unfold loadDuration
  rw [jsParseInt_intDecString]
  simp [h0]

/-- If the busy loop terminated within the trace, some clock reading reached
the deadline. -/
theorem loadLoop_exit {endTime : Int} {ts : List Nat} {k : Nat}
    (h : loadLoop endTime ts = some k) : ∃ t ∈ ts, endTime ≤ (t : Int) := by
  induction ts generalizing k with
  | nil => simp [loadLoop] at h
  | cons t ts ih =>
    rw [loadLoop] at h
    split at h
    · next hlt =>
      obtain ⟨k', hk', -⟩ := Option.map_eq_some'.mp h
      obtain ⟨t', ht', hle⟩ := ih hk'
      exact ⟨t', List.mem_cons_of_mem _ ht', hle⟩
    · next hge => exact ⟨t, List.mem_cons_self _ _, le_of_not_lt hge⟩

/-- C1 (amended): `requestedDurationSeconds` never exceeds 30, and it lies in
[1, 30] whenever the parsed `duration` is nonnegative (in particular when the
parameter is missing, non-numeric, or zero); only a parsed negative integer
escapes the lower bound, passing through unclamped. -/
theorem loadDuration_range (q : Option String) :
    loadDuration q ≤ 30 ∧ (0 ≤ (jsParseInt q).getD 0 → 1 ≤ loadDuration q) := by
  unfold loadDuration
  rcases h : jsParseInt q with - | n <;> simp only [h, Option.getD_some, Option.getD_none]
  · omega
  · by_cases hz : n = 0 <;> simp only [hz, if_true, if_false, ite_true, ite_false] <;> omega

theorem loadDuration_range_witness :
    loadDuration (some "7") ≤ 30 ∧ 1 ≤ loadDuration (some "7") :=
  ⟨(loadDuration_range (some "7")).1, (loadDuration_range (some "7")).2 (by decide)⟩

/-- C1 (counterexample): `duration=-3` yields `requestedDurationSeconds = -3`,
outside [1, 30] — the claimed invariant fails for negative integers. -/
theorem loadDuration_negative_counterexample :
    loadDuration (some "-3") = -3 ∧
      ¬(1 ≤ loadDuration (some "-3") ∧ loadDuration (some "-3") ≤ 30) := by
  decide

/-- C2: for every integer `d` in [1, 30], `GET /load?duration=d` answers 200
with `requestedDurationSeconds = d`, and `actualDurationSeconds` (elapsed
wall clock rounded to two decimals) is at least `d`: the loop only exits at
a clock reading past the deadline `start + 1000·d`, and the final reading is
no earlier than any loop reading. -/
theorem load_correct_in_range (hostname : String) (d : Int) (hd1 : 1 ≤ d) (hd30 : d ≤ 30)
    (c : Clock) (status : Nat) (r : LoadResult)
    (hrun : loadHandler hostname (some (intDecString d)) c = some (status, r))
    (hmono : ∀ t ∈ c.checks, t ≤ c.finalNow) :
    status = 200 ∧ r.requestedDuration = d ∧ (d : ℚ) ≤ r.actualDuration := by
  obtain ⟨D, rfl⟩ := Int.eq_ofNat_of_zero_le (by omega : (0 : Int) ≤ d)
  have hdur : loadDuration (some (intDecString (D : Int))) = (D : Int) := by
    rw [loadDuration_intDecString (by omega)]
    omega
  simp only [loadHandler, hdur] at hrun
  obtain ⟨iters, hloop, heq⟩ := Option.map_eq_some'.mp hrun
  obtain ⟨t, ht, hte⟩ := loadLoop_exit hloop
  have htfin : t ≤ c.finalNow := hmono t ht
  injection heq with h1 h2
  subst h1
  subst h2
  refine ⟨rfl, rfl, ?_⟩
  show ((D : Int) : ℚ) ≤ toFixed2 (c.finalNow - c.start)
  rw [toFixed2, Rat.mkRat_eq_div]
  push_cast
  rw [le_div_iff₀ (by norm_num : (0 : ℚ) < 100)]
  have hfinal : D * 100 ≤ (c.finalNow - c.start + 5) / 10 := by omega
  exact_mod_cast hfinal

theorem load_correct_in_range_witness :
    200 = 200 ∧ loadResultOneSec.requestedDuration = 1 ∧
      ((1 : Int) : ℚ) ≤ loadResultOneSec.actualDuration :=
  load_correct_in_range "unknown" 1 (by decide) (by decide) clockOneSec 200 loadResultOneSec
    (by decide) (by decide)

/-- C5: `GET /load` without a `duration` parameter produces exactly the same
response as `duration=5` under the same clock trace, and so does any
non-numeric `duration` value: both parse to NaN and fall back to 5. -/
theorem load_default_duration (hostname : String) (c : Clock) :
    loadHandler hostname none c = loadHandler hostname (some "5") c ∧
    ∀ s : String, jsParseInt (some s) = none →
      loadHandler hostname (some s) c = loadHandler hostname (some "5") c := by
  constructor
  · simp only [loadHandler, show loadDuration none = 5 from by decide,
      show loadDuration (some "5") = 5 from by decide]
  · intro s hs
    have hd : loadDuration (some s) = 5 := by unfold loadDuration; rw [hs]
    simp only [loadHandler, hd, show loadDuration (some "5") = 5 from by decide]

theorem load_default_duration_witness :
    loadHandler "unknown" none clockFiveSec = loadHandler "unknown" (some "5") clockFiveSec ∧
    loadHandler "unknown" (some "abc") clockFiveSec =
      loadHandler "unknown" (some "5") clockFiveSec :=
  ⟨(load_default_duration "unknown" clockFiveSec).1,
    (load_default_duration "unknown" clockFiveSec).2 "abc" (by decide)⟩

/-- C9: `duration=0` parses to 0, which is falsy, so it falls through
`0 || 5` to the default: the response is identical to the no-parameter one
(`requestedDurationSeconds = 5`, the loop running to the 5-second deadline),
while a negative numeral bypasses the default and passes through unclamped. -/
theorem load_zero_defaults (hostname : String) (c : Clock) :
    loadHandler hostname (some "0") c = loadHandler hostname none c ∧
    loadDuration (some "0") = 5 ∧
    ∀ n : Int, n < 0 → loadDuration (some (intDecString n)) = n := by
  refine ⟨?_, by decide, ?_⟩
  · simp only [loadHandler, show loadDuration (some "0") = 5 from by decide,
      show loadDuration none = 5 from by decide]
  · intro n hneg
    rw [loadDuration_intDecString (by omega)]
    omega

theorem load_zero_defaults_witness :
    loadHandler "unknown" (some "0") clockFiveSec = loadHandler "unknown" none clockFiveSec ∧
    loadDuration (some "0") = 5 ∧
    loadDuration (some (intDecString (-7))) = -7 :=
  ⟨(load_zero_defaults "unknown" clockFiveSec).1,
    (load_zero_defaults "unknown" clockFiveSec).2.1,
    (load_zero_defaults "unknown" clockFiveSec).2.2 (-7) (by decide)⟩

/-- C6: `duration=100` — and any numeral above 30 — is accepted and clamped:
the handler still answers 200 and reports `requestedDurationSeconds = 30`. -/
theorem load_clamped_above (hostname : String) (c : Clock) :
    loadDuration (some "100") = 30 ∧
    (∀ n : Int, 30 < n → loadDuration (some (intDecString n)) = 30) ∧
    (∀ (status : Nat) (r : LoadResult),
      loadHandler hostname (some "100") c = some (status, r) →
      status = 200 ∧ r.requestedDuration = 30) := by
  refine ⟨by decide, ?_, ?_⟩
  · intro n hn
    rw [loadDuration_intDecString (by omega)]
    omega
  · intro status r hrun
    simp only [loadHandler, show loadDuration (some "100") = 30 from by decide] at hrun
    obtain ⟨iters, hloop, heq⟩ := Option.map_eq_some'.mp hrun
    injection heq with h1 h2
    subst h1
    subst h2
    exact ⟨rfl, rfl⟩

theorem load_clamped_above_witness :
    loadDuration (some "100") = 30 ∧
    loadDuration (some (intDecString 31)) = 30 ∧
    (200 = 200 ∧ loadResultThirtySec.requestedDuration = 30) :=
  ⟨(load_clamped_above "unknown" clockThirtySec).1,
    (load_clamped_above "unknown" clockThirtySec).2.1 31 (by decide),
    (load_clamped_above "unknown" clockThirtySec).2.2 200 loadResultThirtySec (by decide)⟩

/-! ## `/health` theorems -/

/-- C3: `GET /health` always answers HTTP 200 with `status = "healthy"`;
when the `redis.incr` call throws, the error is swallowed and
`survivorCount` defaults to 0, the request still succeeding. -/
theorem health_always_healthy (inp : HealthInput) :
    (healthHandler inp).1 = 200 ∧
    (healthHandler inp).2.status = "healthy" ∧
    (∀ e, inp.redisIncr = .error e → (healthHandler inp).2.survivorCount = 0) ∧
    (∀ n, inp.redisIncr = .ok n → (healthHandler inp).2.survivorCount = n) := by
  refine ⟨rfl, rfl, ?_, ?_⟩
  · intro e he
    simp [healthHandler, he]
  · intro n hn
    simp [healthHandler, hn]

theorem health_always_healthy_witness :
    (healthHandler healthInputErr).1 = 200 ∧
    (healthHandler healthInputErr).2.status = "healthy" ∧
    (healthHandler healthInputErr).2.survivorCount = 0 :=
  ⟨(health_always_healthy healthInputErr).1,
    (health_always_healthy healthInputErr).2.1,
    (health_always_healthy healthInputErr).2.2.1 "ECONNREFUSED" rfl⟩

/-- C7 (amended): the `memory.used` and `memory.total` fields of the health
report are not JSON integers but strings of the form `"<n> MB"`, where `n`
is the heap byte count divided by 2²⁰ and rounded to nearest (within half a
megabyte). -/
theorem health_memory_mb_strings (inp : HealthInput) :
    ∃ u t : Nat,
      (healthHandler inp).2.memoryUsed = .str (natDecString u ++ " MB") ∧
      (healthHandler inp).2.memoryTotal = .str (natDecString t ++ " MB") ∧
      1048576 * u ≤ inp.heapUsedBytes + 524288 ∧
      inp.heapUsedBytes ≤ 1048576 * u + 524288 ∧
      1048576 * t ≤ inp.heapTotalBytes + 524288 ∧
      inp.heapTotalBytes ≤ 1048576 * t + 524288 := by
  refine ⟨roundMB inp.heapUsedBytes, roundMB inp.heapTotalBytes, rfl, rfl, ?_, ?_, ?_, ?_⟩ <;>
    (unfold roundMB; omega)

/-- C7 (counterexample): on a process with 12 MB of used heap the health
report's `memory.used` field is the string `"12 MB"`, not an integer. -/
theorem health_memory_not_integer :
    (healthHandler healthInputOk).2.memoryUsed = JsonValue.str "12 MB" ∧
    ¬∃ n : Int, (healthHandler healthInputOk).2.memoryUsed = JsonValue.num n := by
  refine ⟨by decide, ?_⟩
  rintro ⟨n, h⟩
  rw [show (healthHandler healthInputOk).2.memoryUsed = JsonValue.str "12 MB" from by decide] at h
  simp at h

/-! ## Middleware theorems -/

/-- C4: each request increments the in-flight gauge once at start and, on
response completion — whether the handler returned normally or threw —
records exactly one histogram observation at `(method, path)` and exactly
one counter increment at `(method, path, status)`, then decrements the
gauge, so the gauge's net change is zero; consequently any sequence of
completed requests leaves the gauge at its initial value. -/
theorem middleware_request_accounting (m : Metrics) (method path : String)
    (out : HandlerOutcome) (ms : Nat) :
    (trackRequest m method path out ms).activeConnections = m.activeConnections ∧
    (trackRequest m method path out ms).httpRequestsTotal (method, path, finishStatus out) =
      m.httpRequestsTotal (method, path, finishStatus out) + 1 ∧
    (∀ k, k ≠ (method, path, finishStatus out) →
      (trackRequest m method path out ms).httpRequestsTotal k = m.httpRequestsTotal k) ∧
    (trackRequest m method path out ms).durationObservations (method, path) =
      mkRat ms 1000 :: m.durationObservations (method, path) ∧
    (∀ k, k ≠ (method, path) →
      (trackRequest m method path out ms).durationObservations k =
        m.durationObservations k) ∧
    (∀ reqs : List (String × String × HandlerOutcome × Nat),
      (trackAll m reqs).activeConnections = m.activeConnections) := by
  have hAll : ∀ (reqs : List (String × String × HandlerOutcome × Nat)) (m' : Metrics),
      (trackAll m' reqs).activeConnections = m'.activeConnections := by
    intro reqs
    induction reqs with
    | nil => intro m'; rfl
    | cons r rest ih =>
      intro m'
      obtain ⟨me, pa, ou, del⟩ := r
      rw [trackAll, ih]
      simp only [trackRequest]
      omega
  refine ⟨by simp only [trackRequest]; omega, by simp [trackRequest], ?_, by simp [trackRequest],
    ?_, fun reqs => hAll reqs m⟩
  · intro k hk
    simp [trackRequest, hk]
  · intro k hk
    simp [trackRequest, hk]

theorem middleware_request_accounting_witness :
    (trackRequest metricsZero "GET" "/load" (.thrown "boom") 3).activeConnections =
      metricsZero.activeConnections ∧
    (trackRequest metricsZero "GET" "/load" (.thrown "boom") 3).httpRequestsTotal
        ("GET", "/load", finishStatus (.thrown "boom")) =
      metricsZero.httpRequestsTotal ("GET", "/load", finishStatus (.thrown "boom")) + 1 ∧
    (trackRequest metricsZero "GET" "/load" (.thrown "boom") 3).httpRequestsTotal
        ("GET", "/health", 200) =
      metricsZero.httpRequestsTotal ("GET", "/health", 200) ∧
    (trackRequest metricsZero "GET" "/load" (.thrown "boom") 3).durationObservations
        ("GET", "/load") =
      mkRat 3 1000 :: metricsZero.durationObservations ("GET", "/load") ∧
    (trackAll metricsZero [("GET", "/", .normal 200, 1), ("POST", "/chaos/kill", .normal 200, 2)]
        ).activeConnections = metricsZero.activeConnections :=
  ⟨(middleware_request_accounting metricsZero "GET" "/load" (.thrown "boom") 3).1,
    (middleware_request_accounting metricsZero "GET" "/load" (.thrown "boom") 3).2.1,
    (middleware_request_accounting metricsZero "GET" "/load" (.thrown "boom") 3).2.2.1
      ("GET", "/health", 200) (by decide),
    (middleware_request_accounting metricsZero "GET" "/load" (.thrown "boom") 3).2.2.2.1,
    (middleware_request_accounting metricsZero "GET" "/load" (.thrown "boom") 3).2.2.2.2.2
      [("GET", "/", .normal 200, 1), ("POST", "/chaos/kill", .normal 200, 2)]⟩

/-! ## `/metrics` theorems -/

/-- C8: `GET /metrics` answers 200 with the serialized registry on success;
when serialization throws, it answers 500 with the raw error message as the
entire body — no retry, no partial output. -/
theorem metrics_error_surface (s : Except String String) :
    (∀ body, s = .ok body → metricsHandler s = (200, body)) ∧
    (∀ e, s = .error e → metricsHandler s = (500, e)) := by
  constructor
  · intro body hb
    rw [hb]
    rfl
  · intro e he
    rw [he]
    rfl

theorem metrics_error_surface_witness :
    metricsHandler (.ok "http_requests_total 4") = (200, "http_requests_total 4") ∧
    metricsHandler (.error "encode failure") = (500, "encode failure") :=
  ⟨(metrics_error_surface (.ok "http_requests_total 4")).1 _ rfl,
    (metrics_error_surface (.error "encode failure")).2 _ rfl⟩

/-! ## Rate-limiter theorems -/

/-- C10: `/health`, `/ready` and `/metrics` are never rejected by the rate
limiter, while any other path admits, per client IP and 15-minute window,
exactly the first 1000 requests and rejects the rest. -/
theorem rate_limiter_exemptions (path : String) (hits : Nat) :
    (limiterStep "/health" hits).1 = true ∧
    (limiterStep "/ready" hits).1 = true ∧
    (limiterStep "/metrics" hits).1 = true ∧
    (rateLimitSkip path = false →
      ((limiterStep path hits).1 = true ↔ hits < rateLimitMax)) ∧
    (rateLimitSkip path = false →
      ∀ n, limiterRun path n = (min n rateLimitMax, n)) := by
  refine ⟨by simp [limiterStep, rateLimitSkip], by simp [limiterStep, rateLimitSkip],
    by simp [limiterStep, rateLimitSkip], ?_, ?_⟩
  · intro hskip
    simp only [limiterStep, hskip, Bool.false_eq_true, if_false, decide_eq_true_eq,
      rateLimitMax]
    omega
  · intro hskip n
    induction n with
    | zero => simp [limiterRun, rateLimitMax]
    | succ n ih =>
      rw [limiterRun, ih]
      simp only [limiterStep, hskip, Bool.false_eq_true, if_false, rateLimitMax]
      by_cases hn : n + 1 ≤ 1000
      · simp only [decide_eq_true (by omega : n + 1 ≤ 1000), if_true, Prod.mk.injEq]
        exact ⟨by omega, trivial⟩
      · rw [decide_eq_false (by omega : ¬(n + 1 ≤ 1000))]
        simp only [Bool.false_eq_true, if_false, Prod.mk.injEq]
        exact ⟨by omega, trivial⟩

theorem rate_limiter_exemptions_witness :
    (limiterStep "/health" 5000).1 = true ∧
    ((limiterStep "/load" 5000).1 = true ↔ 5000 < rateLimitMax) ∧
    limiterRun "/load" 1200 = (min 1200 rateLimitMax, 1200) :=
  ⟨(rate_limiter_exemptions "/load" 5000).1,
    (rate_limiter_exemptions "/load" 5000).2.2.2.1 (by decide),
    (rate_limiter_exemptions "/load" 5000).2.2.2.2 (by decide) 1200⟩

end AntiGravity
